import Mathlib

/-!
Verification of the LSF cluster job driver (`src/clib/lib/job_queue/lsf_driver.cpp`).

The C++ driver is shallowly embedded: each C function that a claim concerns is
translated into an executable Lean definition over explicit state.  External
effects (spawning a process, reading its captured output with `fscanf`/`sscanf`)
are represented by passing the parsed outcome of the external command as an
input to the embedded function; `util_abort`/`util_exit`/`throw` are represented
by an `Option`/error result (`none` = the process terminates or the call
throws).
-/

/-- Modelled from the spec: the header `ert/job_queue/lsf_job_stat.hpp` is not
part of the excerpted sources.  The spec describes a small closed vocabulary of
backend-native status codes; the header mirrors the LSF `lsbatch.h` flag
convention, under which the codes are distinct bit flags. -/
def JOB_STAT_NULL : Nat := 0

/-- Backend-native code for a pending job (LSF flag 0x01). -/
def JOB_STAT_PEND : Nat := 1

/-- Backend-native code for a pending-suspended job (LSF flag 0x02). -/
def JOB_STAT_PSUSP : Nat := 2

/-- Backend-native code for a running job (LSF flag 0x04). -/
def JOB_STAT_RUN : Nat := 4

/-- Backend-native code for a system-suspended job (LSF flag 0x08). -/
def JOB_STAT_SSUSP : Nat := 8

/-- Backend-native code for a user-suspended job (LSF flag 0x10). -/
def JOB_STAT_USUSP : Nat := 16

/-- Backend-native code for an exited job (LSF flag 0x20). -/
def JOB_STAT_EXIT : Nat := 32

/-- Backend-native code for a done job (LSF flag 0x40). -/
def JOB_STAT_DONE : Nat := 64

/-- Backend-native code for a post-processed done job (LSF flag 0x80). -/
def JOB_STAT_PDONE : Nat := 128

/-- Backend-native code for a job of unknown status (LSF flag 0x10000). -/
def JOB_STAT_UNKWN : Nat := 65536

/-- Modelled from the spec: the backend-agnostic normalized status vocabulary
`{NOT_ACTIVE, PENDING, RUNNING, DONE, EXIT, UNKNOWN}` (the enum lives in
`ert/job_queue/queue_driver.hpp`, outside the excerpted sources). -/
inductive job_status_type where
  | JOB_QUEUE_NOT_ACTIVE
  | JOB_QUEUE_PENDING
  | JOB_QUEUE_RUNNING
  | JOB_QUEUE_DONE
  | JOB_QUEUE_EXIT
  | JOB_QUEUE_UNKNOWN
deriving DecidableEq, Repr

/-- Modelled from the spec: the invocation-method enum
(`lsf_submit_method_enum`, declared in a header outside the excerpted sources);
the spec lists `{LOCAL_DIRECT, REMOTE_SHELL, LIBRARY, INVALID}`. -/
inductive lsf_submit_method_enum where
  | LSF_SUBMIT_INVALID
  | LSF_SUBMIT_INTERNAL
  | LSF_SUBMIT_LOCAL_SHELL
  | LSF_SUBMIT_REMOTE_SHELL
deriving DecidableEq, Repr

/-- First-match lookup in an association list; models `std::map::find` (the C
maps are built from initializer lists where a duplicated key keeps the first
entry, which is exactly first-match lookup in initializer order). -/
def mapFind {α β : Type} [DecidableEq α] : List (α × β) → α → Option β
  | [], _ => none
  | (a, b) :: rest, k => if a = k then some b else mapFind rest k

/-- Embedding of `status_map` (lsf_driver.cpp lines 141-146): the closed
bjobs status-token table. -/
def status_map : List (String × Nat) :=
  [("PEND", JOB_STAT_PEND), ("SSUSP", JOB_STAT_SSUSP),
   ("PSUSP", JOB_STAT_PSUSP), ("USUSP", JOB_STAT_USUSP),
   ("RUN", JOB_STAT_RUN), ("EXIT", JOB_STAT_EXIT),
   ("ZOMBI", JOB_STAT_EXIT), ("DONE", JOB_STAT_DONE),
   ("PDONE", JOB_STAT_PDONE), ("UNKWN", JOB_STAT_UNKWN)]

/-- Embedding of `convert_status_map` (lsf_driver.cpp lines 148-162), kept in
initializer order with the duplicated `JOB_STAT_NULL` entries of the source. -/
def convert_status_map : List (Nat × job_status_type) :=
  [(JOB_STAT_NULL, job_status_type.JOB_QUEUE_NOT_ACTIVE),
   (JOB_STAT_PEND, job_status_type.JOB_QUEUE_PENDING),
   (JOB_STAT_SSUSP, job_status_type.JOB_QUEUE_RUNNING),
   (JOB_STAT_USUSP, job_status_type.JOB_QUEUE_RUNNING),
   (JOB_STAT_PSUSP, job_status_type.JOB_QUEUE_RUNNING),
   (JOB_STAT_RUN, job_status_type.JOB_QUEUE_RUNNING),
   (JOB_STAT_DONE, job_status_type.JOB_QUEUE_DONE),
   (JOB_STAT_EXIT, job_status_type.JOB_QUEUE_EXIT),
   (JOB_STAT_UNKWN, job_status_type.JOB_QUEUE_UNKNOWN),
   (JOB_STAT_DONE + JOB_STAT_PDONE, job_status_type.JOB_QUEUE_DONE),
   (JOB_STAT_NULL, job_status_type.JOB_QUEUE_NOT_ACTIVE),
   (JOB_STAT_NULL, job_status_type.JOB_QUEUE_NOT_ACTIVE),
   (JOB_STAT_NULL, job_status_type.JOB_QUEUE_NOT_ACTIVE)]

/-- Embedding of `lsf_driver_convert_status` (lsf_driver.cpp lines 626-637):
look the backend-native code up in `convert_status_map`; `none` models the
`throw exc::runtime_error` branch for an unmapped code (the initially assigned
`JOB_QUEUE_NOT_ACTIVE` is never returned on that branch because the throw
aborts the function). -/
def lsf_driver_convert_status (lsf_status : Nat) : Option job_status_type :=
  mapFind convert_status_map lsf_status

/-- Embedding of `lsf_driver_get_bhist_status_shell` (lsf_driver.cpp lines
546-573).  Each argument is the outcome of one `lsf_driver_run_bhist` call:
`none` when the six-field `fscanf` of the bhist output fails (the C function
then returns early with the initial `JOB_STAT_UNKWN`), otherwise
`some (pend_time, run_time)`.  The body mirrors the C sequence of three
independent `if` statements overwriting `status` in order. -/
def lsf_driver_get_bhist_status_shell
    (sample1 sample2 : Option (Int × Int)) : Nat :=
  match sample1, sample2 with
  | some (pend_time1, run_time1), some (pend_time2, run_time2) =>
    let status0 := JOB_STAT_UNKWN
    let status1 :=
      if run_time1 = run_time2 ∧ pend_time1 = pend_time2 then JOB_STAT_DONE
      else status0
    let status2 := if pend_time2 > pend_time1 then JOB_STAT_PEND else status1
    if run_time2 > run_time1 then JOB_STAT_RUN else status2
  | _, _ => JOB_STAT_UNKWN

/-- Statuses the history probe can ever report: the four values reachable in
`lsf_driver_get_bhist_status_shell`. -/
def bhistPossibleStatuses : List Nat :=
  [JOB_STAT_UNKWN, JOB_STAT_DONE, JOB_STAT_PEND, JOB_STAT_RUN]

/-- A backend-native code the status cache can ever contain: either a value of
the refresher's token table `status_map` (inserted by
`lsf_driver_update_bjobs_table`) or a possible result of the history probe
(inserted by the fallback branch of `lsf_driver_get_job_status_shell`). -/
def cacheInsertable (code : Nat) : Prop :=
  code ∈ status_map.map Prod.snd ∨ code ∈ bhistPossibleStatuses

instance (code : Nat) : Decidable (cacheInsertable code) := by
  unfold cacheInsertable
  infer_instance

/-- The bjobs status cache (`driver->bjobs_cache`): a hash table from job-id
string to backend-native status code, modelled as an association list read
through the first-match `mapFind`. -/
abbrev BjobsCache := List (String × Nat)

/-- Embedding of `hash_insert_int`: prepend the new binding; first-match lookup
then sees the most recent insertion for a key, matching hash-table overwrite
semantics. -/
def hash_insert_int (cache : BjobsCache) (key : String) (value : Nat) :
    BjobsCache :=
  (key, value) :: cache

/-- Embedding of `hash_has_key` on the cache. -/
def hashHasKey (cache : BjobsCache) (key : String) : Bool :=
  (mapFind cache key).isSome

/-- One line of the bulk bjobs listing after the external `sscanf` with format
`%d %s %s`: `none` when the line does not parse into three fields (the C loop
then silently skips it), `some (job_id, user, status_token)` otherwise. -/
abbrev BjobsLine := Option (Int × String × String)

/-- Loop body of `lsf_driver_update_bjobs_table` (lsf_driver.cpp lines
449-474): walk the remaining listing lines, and for each parsed line whose
sprintf-ed job id is a member of `my_jobs`, translate the status token through
`status_map` and insert it; an unrecognized token on such a line is the
`util_exit` call, modelled as `none`. -/
def bjobsInsertLines (my_jobs : List String) :
    List BjobsLine → BjobsCache → Option BjobsCache
  | [], cache => some cache
  | none :: rest, cache => bjobsInsertLines my_jobs rest cache
  | some (job_id_int, _user, status) :: rest, cache =>
    let job_id := toString job_id_int
    if job_id ∈ my_jobs then
      match mapFind status_map status with
      | some code =>
        bjobsInsertLines my_jobs rest (hash_insert_int cache job_id code)
      | none => none
    else bjobsInsertLines my_jobs rest cache

/-- Embedding of `lsf_driver_update_bjobs_table` (lsf_driver.cpp lines
424-479).  `lines` is the captured output of the bulk listing command, one
entry per text line in order; the function skips the single header line
(`util_fskip_lines(stream, 1)`), clears the previous cache (`hash_clear`, hence
the `prior` argument is discarded and the fold starts from the empty cache) and
inserts the recognized my-jobs lines.  `none` models the fatal `util_exit` on
an unrecognized status token. -/
def lsf_driver_update_bjobs_table (my_jobs : List String)
    (lines : List BjobsLine) (prior : BjobsCache) : Option BjobsCache :=
  let _ := prior
  bjobsInsertLines my_jobs (lines.drop 1) []

/-- Embedding of `lsf_job_struct`: the per-job handle fields used by the
status and submission paths. -/
structure lsf_job where
  lsf_jobnr : Int
  lsf_jobnr_char : String
  job_name : String
deriving DecidableEq, Repr

/-- The shell-related driver state read and written by the status path. -/
structure shell_state where
  bjobs_cache : BjobsCache
  last_bjobs_update : Int
  bjobs_refresh_interval : Int
  debug_output : Bool
  my_jobs : List String
deriving DecidableEq, Repr

/-- Result of one `lsf_driver_get_job_status_shell` call: the backend-native
status returned, the driver state after the call, and whether this call
refreshed the whole cache. -/
structure StatusResult where
  status : Nat
  state : shell_state
  did_refresh : Bool
deriving DecidableEq, Repr

/-- Second half of `lsf_driver_get_job_status_shell` (lsf_driver.cpp lines
600-619): after freshness is ensured, return the cached code when the id is
present; otherwise run the history probe, insert its answer into the cache and
turn debug output on. -/
def lookupOrProbe (st : shell_state) (job : lsf_job)
    (sample1 sample2 : Option (Int × Int)) (did : Bool) : StatusResult :=
  match mapFind st.bjobs_cache job.lsf_jobnr_char with
  | some code => ⟨code, st, did⟩
  | none =>
    let status := lsf_driver_get_bhist_status_shell sample1 sample2
    ⟨status,
     { st with
       bjobs_cache := hash_insert_int st.bjobs_cache job.lsf_jobnr_char status,
       debug_output := true },
     did⟩

/-- Embedding of `lsf_driver_get_job_status_shell` (lsf_driver.cpp lines
575-624).  `now` is the value of `time(NULL)`; `listing` is the output the
bulk listing command would produce if invoked; `sample1`/`sample2` are the
outcomes the two history-probe calls would produce if invoked.  A null job
handle (`job = none`) short-circuits to `JOB_STAT_NULL` with nothing else
executed.  `none` models the fatal `util_exit` inside a refresh. -/
def lsf_driver_get_job_status_shell (now : Int) (st : shell_state)
    (job : Option lsf_job) (listing : List BjobsLine)
    (sample1 sample2 : Option (Int × Int)) : Option StatusResult :=
  match job with
  | none => some ⟨JOB_STAT_NULL, st, false⟩
  | some job =>
    let update_cache : Bool :=
      decide (now - st.last_bjobs_update > st.bjobs_refresh_interval) ||
        !(hashHasKey st.bjobs_cache job.lsf_jobnr_char)
    if update_cache then
      match lsf_driver_update_bjobs_table st.my_jobs listing st.bjobs_cache with
      | none => none
      | some cache1 =>
        some (lookupOrProbe
          { st with bjobs_cache := cache1, last_bjobs_update := now }
          job sample1 sample2 true)
    else some (lookupOrProbe st job sample1 sample2 false)

/-- Embedding of `lsf_driver_get_job_status` (lsf_driver.cpp lines 639-649):
the shell status lookup followed by `lsf_driver_convert_status`. -/
def lsf_driver_get_job_status (now : Int) (st : shell_state)
    (job : Option lsf_job) (listing : List BjobsLine)
    (sample1 sample2 : Option (Int × Int)) :
    Option (job_status_type × shell_state) :=
  match lsf_driver_get_job_status_shell now st job listing sample1 sample2 with
  | none => none
  | some r =>
    match lsf_driver_convert_status r.status with
    | none => none
    | some js => some (js, r.state)

/-- Embedding of the `spawn_blocking` call of `lsf_driver_run_bhist`
(lsf_driver.cpp lines 481-501): which executable and argument vector the probe
invokes for one sample, depending on the invocation method.  `none` means no
command is spawned at all (neither branch taken). -/
def lsf_driver_run_bhist_spawn (method : lsf_submit_method_enum)
    (rsh_cmd bhist_cmd bjobs_cmd remote_lsf_server lsf_jobnr_char : String) :
    Option (String × List String) :=
  match method with
  | lsf_submit_method_enum.LSF_SUBMIT_REMOTE_SHELL =>
    some (rsh_cmd, [remote_lsf_server, bhist_cmd ++ " " ++ lsf_jobnr_char])
  | lsf_submit_method_enum.LSF_SUBMIT_LOCAL_SHELL =>
    some (bjobs_cmd, [lsf_jobnr_char])
  | _ => none

/-- Observable steps of one `lsf_driver_submit_job` call, in program order. -/
inductive SubmitEvent where
  | jitterSleep (usec : Nat)
  | lock
  | runSubmitCmd
  | registerMyJob (id : String)
  | unlock
  | writeReceipt (path content : String)
  | incrementError
  | exitProcess
  | sleepBackoff (usec : Nat)
deriving DecidableEq, Repr

/-- Result of one `lsf_driver_submit_job` call: the event trace, the returned
handle (`none` on failure or termination), and the driver fields the call may
have changed. -/
structure SubmitOutcome where
  events : List SubmitEvent
  job : Option lsf_job
  error_count : Nat
  my_jobs : List String
  debug_output : Bool
  terminated : Bool
deriving DecidableEq, Repr

/-- Events strictly between the `pthread_mutex_lock(&driver->submit_lock)` and
the matching unlock in a trace: everything after the first `lock` and before
the next `unlock`. -/
def criticalSection (events : List SubmitEvent) : List SubmitEvent :=
  (((events.dropWhile fun e => decide (e ≠ SubmitEvent.lock))).drop 1).takeWhile
    fun e => decide (e ≠ SubmitEvent.unlock)

/-- Embedding of `lsf_driver_submit_job` (lsf_driver.cpp lines 700-757).
`parsed_jobnr` is the id that `lsf_driver_submit_shell_job` obtains by spawning
the submit command and parsing its captured output (`0` when no id was
parsed).  The trace records, in source order: the jitter `usleep`, the submit
mutex lock, the external submit command, the `hash_insert_ref` into
`driver->my_jobs`, the unlock, and then either the receipt write (success) or
the error-counter increment followed by `util_exit` or the backoff sleep
(failure).  An `LSF_SUBMIT_INVALID` method hits
`lsf_driver_assert_submit_method`, which calls `exit(1)` before anything
else. -/
def lsf_driver_submit_job (method : lsf_submit_method_enum)
    (error_count max_error_count submit_sleep submit_error_sleep : Nat)
    (debug_output : Bool) (my_jobs : List String)
    (run_path job_name : String) (parsed_jobnr : Int) : SubmitOutcome :=
  if method = lsf_submit_method_enum.LSF_SUBMIT_INVALID then
    ⟨[SubmitEvent.exitProcess], none, error_count, my_jobs, debug_output, true⟩
  else
    let lsf_jobnr_char := toString parsed_jobnr
    let events0 : List SubmitEvent :=
      [SubmitEvent.jitterSleep submit_sleep, SubmitEvent.lock,
       SubmitEvent.runSubmitCmd, SubmitEvent.registerMyJob lsf_jobnr_char,
       SubmitEvent.unlock]
    let my_jobs1 := lsf_jobnr_char :: my_jobs
    if parsed_jobnr > 0 then
      let content :=
        "\x7b\"job_id\" : " ++ toString parsed_jobnr ++ "\x7d\n"
      let json_file := run_path ++ "/" ++ "lsf_info.json"
      ⟨events0 ++ [SubmitEvent.writeReceipt json_file content],
       some ⟨parsed_jobnr, lsf_jobnr_char, job_name⟩,
       error_count, my_jobs1, debug_output, false⟩
    else
      let error_count1 := error_count + 1
      if max_error_count ≤ error_count1 then
        ⟨events0 ++ [SubmitEvent.incrementError, SubmitEvent.exitProcess],
         none, error_count1, my_jobs1, debug_output, true⟩
      else
        ⟨events0 ++
           [SubmitEvent.incrementError,
            SubmitEvent.sleepBackoff submit_error_sleep],
         none, error_count1, my_jobs1, true, false⟩

/-- Iterated consecutive submission failures starting from a zero error
counter: each step is one `lsf_driver_submit_job` call whose parsed id is 0,
with the driver's default jitter (0 after truncation of the fractional
default) and backoff (`SUBMIT_ERROR_SLEEP * 1000000`); iteration stops once a
step terminated the process. -/
def runConsecutiveFailures (method : lsf_submit_method_enum)
    (max_error_count : Nat) : Nat → Nat × Bool
  | 0 => (0, false)
  | n + 1 =>
    let prev := runConsecutiveFailures method max_error_count n
    if prev.2 then prev
    else
      let o := lsf_driver_submit_job method prev.1 max_error_count 0 2000000
        false [] "run" "job" 0
      (o.error_count, o.terminated)

/-- The single-quote character used around excluded hostnames. -/
def squoteChar : Char := Char.ofNat 39

/-- The double-quote character used to shell-quote the resource request. -/
def dquoteChar : Char := Char.ofNat 34

/-- The pattern handed to `strstr` when looking for a selection clause. -/
def selectPat : List Char := "select[".toList

/-- The logical-AND separator `ert::join` uses between selection predicates. -/
def andSep : List Char := " && ".toList

/-- Embedding of `strstr`: split a string at the first occurrence of `pat`,
returning the text before the occurrence and the text after it; `none` when
`pat` does not occur. -/
def splitFirst (pat : List Char) : List Char → Option (List Char × List Char)
  | [] => none
  | c :: rest =>
    if (c :: rest).take pat.length = pat then
      some ([], (c :: rest).drop pat.length)
    else
      match splitFirst pat rest with
      | some (pre, suf) => some (c :: pre, suf)
      | none => none

/-- Number of positions at which `pat` occurs in a string (used to state the
claim's "zero or one existing selection clause" hypothesis). -/
def occCount (pat : List Char) : List Char → Nat
  | [] => 0
  | c :: rest =>
    (if (c :: rest).take pat.length = pat then 1 else 0) + occCount pat rest

/-- Embedding of `ert::join(list, " && ")`. -/
def joinAnd : List (List Char) → List Char
  | [] => []
  | [x] => x
  | x :: y :: rest => x ++ andSep ++ joinAnd (y :: rest)

/-- One hostname-exclusion predicate, as built in
`alloc_quoted_resource_string`: `hname!='host'`. -/
def excludeHostPredicate (host : List Char) : List Char :=
  "hname!=".toList ++ squoteChar :: (host ++ [squoteChar])

/-- Embedding of `alloc_composed_resource_request` (lsf_driver.cpp lines
246-281).  `excludes_string` is the already-joined exclusion predicate string.
With no `select[` in the template the function appends a fresh clause; with one
it finds the first `]` at or after the `select[` (the C code overwrites that
`]` with a space, splits the buffer just before it, and splices
`" && excludes]"` in between, so the overwritten `]` survives as a space at
the head of the tail).  `none` models the `util_abort` when the selection
clause is unterminated. -/
def alloc_composed_resource_request (resource_request : List Char)
    (excludes_string : List Char) : Option (List Char) :=
  match splitFirst selectPat resource_request with
  | none =>
    some (resource_request ++ " select[".toList ++ excludes_string ++ [']'])
  | some (pre, suf) =>
    match splitFirst [']'] (selectPat ++ suf) with
    | none => none
    | some (mid, post) =>
      some (pre ++ mid ++ andSep ++ excludes_string ++ [']'] ++ (' ' :: post))

/-- The unquoted resource string computed inside
`alloc_quoted_resource_string` (lsf_driver.cpp lines 292-311): the original
template when no host is excluded, otherwise the template with the
`hname!='X'` predicates folded into its selection clause (or a fresh
`select[...]` when there is no template).  `none` covers both the "no resource
request at all" case and the `util_abort` of the composition. -/
def lsf_resource_request_unquoted (resource_request : Option (List Char))
    (exclude_hosts : List (List Char)) : Option (List Char) :=
  if exclude_hosts = [] then resource_request
  else
    let select_list := exclude_hosts.map excludeHostPredicate
    let excludes_string := joinAnd select_list
    match resource_request with
    | some rr => alloc_composed_resource_request rr excludes_string
    | none => some ("select[".toList ++ excludes_string ++ [']'])

/-- Embedding of `alloc_quoted_resource_string` (lsf_driver.cpp lines
292-322): wrap the composed resource string in `"` exactly when the submit
method is `LSF_SUBMIT_REMOTE_SHELL`. -/
def alloc_quoted_resource_string (method : lsf_submit_method_enum)
    (resource_request : Option (List Char))
    (exclude_hosts : List (List Char)) : Option (List Char) :=
  match lsf_resource_request_unquoted resource_request exclude_hosts with
  | none => none
  | some req =>
    if method = lsf_submit_method_enum.LSF_SUBMIT_REMOTE_SHELL then
      some (dquoteChar :: (req ++ [dquoteChar]))
    else some req

/-! ## Helper lemmas -/

theorem mapFind_eq_none {α β : Type} [DecidableEq α] (m : List (α × β))
    (k : α) : mapFind m k = none ↔ k ∉ m.map Prod.fst := by
  induction m with
  | nil => simp [mapFind]
  | cons ab rest ih =>
    obtain ⟨a, b⟩ := ab
    by_cases h : a = k
    · subst h
      simp [mapFind]
    · rw [show mapFind ((a, b) :: rest) k = mapFind rest k by
        simp [mapFind, h], ih]
      simp only [List.map_cons, List.mem_cons, not_or]
      exact ⟨fun hk => ⟨fun hka => h hka.symm, hk⟩, And.right⟩

theorem bhist_result_possible (sample1 sample2 : Option (Int × Int)) :
    lsf_driver_get_bhist_status_shell sample1 sample2 ∈
      bhistPossibleStatuses := by
  match sample1, sample2 with
  | none, _ => simp [lsf_driver_get_bhist_status_shell, bhistPossibleStatuses]
  | some (p1, r1), none =>
    simp [lsf_driver_get_bhist_status_shell, bhistPossibleStatuses]
  | some (p1, r1), some (p2, r2) =>
    simp only [lsf_driver_get_bhist_status_shell, bhistPossibleStatuses]
    split
    · simp
    · split
      · simp
      · split <;> simp

/-! ## Claim theorems -/

/-- Claim C1: the history probe's inference follows the fixed priority order —
unchanged counters give `DONE`, an increased pending counter gives `PEND`, an
increased running counter gives `RUN` with the running check evaluated after
the pending check (so that both counters increasing gives `RUN`), and a parse
failure of either sample gives `UNKWN`. -/
theorem bhist_status_inference :
    (∀ pend1 run1 pend2 run2 : Int,
      (pend1 = pend2 → run1 = run2 →
        lsf_driver_get_bhist_status_shell (some (pend1, run1))
          (some (pend2, run2)) = JOB_STAT_DONE) ∧
      (pend2 > pend1 → run2 ≤ run1 →
        lsf_driver_get_bhist_status_shell (some (pend1, run1))
          (some (pend2, run2)) = JOB_STAT_PEND) ∧
      (run2 > run1 →
        lsf_driver_get_bhist_status_shell (some (pend1, run1))
          (some (pend2, run2)) = JOB_STAT_RUN)) ∧
    (∀ sample : Option (Int × Int),
      lsf_driver_get_bhist_status_shell none sample = JOB_STAT_UNKWN ∧
      lsf_driver_get_bhist_status_shell sample none = JOB_STAT_UNKWN) := by
  constructor
  · intro pend1 run1 pend2 run2
    refine ⟨?_, ?_, ?_⟩
    · intro h1 h2
      subst h1
      subst h2
      simp [lsf_driver_get_bhist_status_shell]
    · intro h1 h2
      simp [lsf_driver_get_bhist_status_shell, h1, not_lt.mpr h2]
    · intro h
      simp [lsf_driver_get_bhist_status_shell, h]
  · intro sample
    refine ⟨rfl, ?_⟩
    cases sample with
    | none => rfl
    | some s => rfl

/-- Witness for C1, at the spec's own test vectors. -/
theorem bhist_status_inference_witness :
    lsf_driver_get_bhist_status_shell (some (5, 10)) (some (5, 10))
        = JOB_STAT_DONE ∧
    lsf_driver_get_bhist_status_shell (some (5, 10)) (some (8, 10))
        = JOB_STAT_PEND ∧
    lsf_driver_get_bhist_status_shell (some (5, 10)) (some (5, 14))
        = JOB_STAT_RUN ∧
    lsf_driver_get_bhist_status_shell (some (5, 10)) none = JOB_STAT_UNKWN :=
  ⟨(bhist_status_inference.1 5 10 5 10).1 rfl rfl,
   (bhist_status_inference.1 5 10 8 10).2.1 (by decide) (by decide),
   (bhist_status_inference.1 5 10 5 14).2.2 (by decide),
   (bhist_status_inference.2 (some (5, 10))).2⟩

/-- Counterexample to claim C2 as stated: `JOB_STAT_PDONE` is insertable into
the cache (the refresher's token table sends the token `PDONE` to it), yet
`lsf_driver_convert_status` has no mapping for it — the conversion table only
contains the combined `JOB_STAT_DONE + JOB_STAT_PDONE` key — so conversion
throws on a cache-insertable code.  The second half of the claim also fails:
`JOB_STAT_NULL` is outside the insertable set yet converts successfully. -/
theorem convert_status_pdone_unmapped :
    cacheInsertable JOB_STAT_PDONE ∧
    mapFind status_map "PDONE" = some JOB_STAT_PDONE ∧
    lsf_driver_convert_status JOB_STAT_PDONE = none ∧
    ¬cacheInsertable JOB_STAT_NULL ∧
    lsf_driver_convert_status JOB_STAT_NULL
        = some job_status_type.JOB_QUEUE_NOT_ACTIVE := by
  refine ⟨by decide, by decide, by decide, by decide, by decide⟩

/-- Claim C2 (amended): every backend-native code the cache can contain except
`JOB_STAT_PDONE` has a defined normalized mapping; conversion fails loudly
(throws, modelled as `none`) exactly for the codes absent from the conversion
table, `JOB_STAT_PDONE` among them. -/
theorem convert_status_total_except_pdone :
    (∀ code, cacheInsertable code → code ≠ JOB_STAT_PDONE →
      (lsf_driver_convert_status code).isSome = true) ∧
    lsf_driver_convert_status JOB_STAT_PDONE = none ∧
    (∀ code, lsf_driver_convert_status code = none ↔
      code ∉ convert_status_map.map Prod.fst) := by
  refine ⟨?_, by decide, fun code => mapFind_eq_none convert_status_map code⟩
  intro code hc hne
  rcases hc with h | h
  · simp only [status_map, List.map_cons, List.map_nil, List.mem_cons,
      List.not_mem_nil, or_false] at h
    rcases h with rfl | rfl | rfl | rfl | rfl | rfl | rfl | rfl | rfl | rfl
    all_goals first
      | rfl
      | exact absurd rfl hne
  · simp only [bhistPossibleStatuses, List.mem_cons, List.not_mem_nil,
      or_false] at h
    rcases h with rfl | rfl | rfl | rfl
    all_goals rfl

/-- Witness for the amended C2, at the insertable code `JOB_STAT_PEND`. -/
theorem convert_status_total_except_pdone_witness :
    (lsf_driver_convert_status JOB_STAT_PEND).isSome = true :=
  convert_status_total_except_pdone.1 JOB_STAT_PEND (by decide) (by decide)

/-- Claim C9 (code evaluation at the failing input): under the local
invocation method the history probe spawns `driver->bjobs_cmd` — the bulk
listing command — with the job id as its argument, not the configured
historical-status command `driver->bhist_cmd`; only the remote-shell branch
uses `bhist_cmd`.  The concrete conjunct shows the two commands differ on the
default configuration (`bjobs` vs `bhist`). -/
theorem run_bhist_local_uses_bjobs_cmd :
    (∀ rsh_cmd bhist_cmd bjobs_cmd server jobnr : String,
      lsf_driver_run_bhist_spawn
          lsf_submit_method_enum.LSF_SUBMIT_LOCAL_SHELL
          rsh_cmd bhist_cmd bjobs_cmd server jobnr
        = some (bjobs_cmd, [jobnr]) ∧
      lsf_driver_run_bhist_spawn
          lsf_submit_method_enum.LSF_SUBMIT_REMOTE_SHELL
          rsh_cmd bhist_cmd bjobs_cmd server jobnr
        = some (rsh_cmd, [server, bhist_cmd ++ " " ++ jobnr])) ∧
    lsf_driver_run_bhist_spawn lsf_submit_method_enum.LSF_SUBMIT_LOCAL_SHELL
        "ssh" "bhist" "bjobs" "srv" "42" = some ("bjobs", ["42"]) ∧
    ("bjobs" : String) ≠ "bhist" :=
  ⟨fun _ _ _ _ _ => ⟨rfl, rfl⟩, rfl, by decide⟩

/-- Claim C10: a status lookup with a null job handle returns `JOB_STAT_NULL`
— which normalizes to `JOB_QUEUE_NOT_ACTIVE` — without refreshing the cache or
mutating any driver state (the returned state is the input state and the
refresh flag is false), regardless of what the external commands would have
produced. -/
theorem null_job_status_not_active :
    ∀ (now : Int) (st : shell_state) (listing : List BjobsLine)
      (sample1 sample2 : Option (Int × Int)),
      lsf_driver_get_job_status_shell now st none listing sample1 sample2
          = some ⟨JOB_STAT_NULL, st, false⟩ ∧
      lsf_driver_get_job_status now st none listing sample1 sample2
          = some (job_status_type.JOB_QUEUE_NOT_ACTIVE, st) ∧
      lsf_driver_convert_status JOB_STAT_NULL
          = some job_status_type.JOB_QUEUE_NOT_ACTIVE :=
  fun _ _ _ _ _ => ⟨rfl, rfl, rfl⟩

theorem submit_fail_eq (method : lsf_submit_method_enum)
    (hm : method ≠ lsf_submit_method_enum.LSF_SUBMIT_INVALID)
    (ec mx ss ses : Nat) (dbg : Bool) (mj : List String) (rp jn : String) :
    lsf_driver_submit_job method ec mx ss ses dbg mj rp jn 0 =
      if mx ≤ ec + 1 then
        ⟨[SubmitEvent.jitterSleep ss, SubmitEvent.lock,
          SubmitEvent.runSubmitCmd,
          SubmitEvent.registerMyJob (toString (0 : Int)), SubmitEvent.unlock,
          SubmitEvent.incrementError, SubmitEvent.exitProcess],
         none, ec + 1, toString (0 : Int) :: mj, dbg, true⟩
      else
        ⟨[SubmitEvent.jitterSleep ss, SubmitEvent.lock,
          SubmitEvent.runSubmitCmd,
          SubmitEvent.registerMyJob (toString (0 : Int)), SubmitEvent.unlock,
          SubmitEvent.incrementError, SubmitEvent.sleepBackoff ses],
         none, ec + 1, toString (0 : Int) :: mj, true, false⟩ := by
  simp only [lsf_driver_submit_job, if_neg hm]
  norm_num

theorem submit_success_eq (method : lsf_submit_method_enum)
    (hm : method ≠ lsf_submit_method_enum.LSF_SUBMIT_INVALID)
    (ec mx ss ses : Nat) (dbg : Bool) (mj : List String) (rp jn : String)
    (id : Int) (hid : 0 < id) :
    lsf_driver_submit_job method ec mx ss ses dbg mj rp jn id =
      ⟨[SubmitEvent.jitterSleep ss, SubmitEvent.lock,
        SubmitEvent.runSubmitCmd, SubmitEvent.registerMyJob (toString id),
        SubmitEvent.unlock,
        SubmitEvent.writeReceipt (rp ++ "/" ++ "lsf_info.json")
          ("\x7b\"job_id\" : " ++ toString id ++ "\x7d\n")],
       some ⟨id, toString id, jn⟩, ec, toString id :: mj, dbg, false⟩ := by
  simp only [lsf_driver_submit_job, if_neg hm, if_pos hid]
  simp

theorem criticalSection_submit_trace (s : String) (ss : Nat)
    (tail : List SubmitEvent) :
    criticalSection
        ([SubmitEvent.jitterSleep ss, SubmitEvent.lock,
          SubmitEvent.runSubmitCmd, SubmitEvent.registerMyJob s,
          SubmitEvent.unlock] ++ tail)
      = [SubmitEvent.runSubmitCmd, SubmitEvent.registerMyJob s] := by
  simp [criticalSection, List.dropWhile, List.takeWhile]

/-- Counterexample to claim C4 as stated: on a failed submission the error
counter is incremented *after* the submission lock has been released — the
`incrementError` step is in the trace but not inside the lock/unlock critical
section (in the source it is the `driver->error_count++` at line 738, after
the `pthread_mutex_unlock` at line 723). -/
theorem submit_error_increment_outside_lock :
    SubmitEvent.incrementError ∈
      (lsf_driver_submit_job lsf_submit_method_enum.LSF_SUBMIT_LOCAL_SHELL
        0 100 0 2000000 false [] "run" "job" 0).events ∧
    SubmitEvent.incrementError ∉
      criticalSection
        (lsf_driver_submit_job lsf_submit_method_enum.LSF_SUBMIT_LOCAL_SHELL
          0 100 0 2000000 false [] "run" "job" 0).events := by
  decide

/-- Claim C4 (amended): on a submission whose parsed job id is 0 the driver
increments its error counter — after releasing the submission lock, not under
it; the process is terminated exactly when the incremented counter reaches the
configured maximum, and otherwise the call sleeps the configured backoff and
returns a null result; consequently, starting from a zero counter, after N-1
consecutive failures (N the configured maximum, N ≥ 1) the process has not
been terminated and after N it has. -/
theorem submit_failure_retry_policy :
    ∀ method : lsf_submit_method_enum,
      method ≠ lsf_submit_method_enum.LSF_SUBMIT_INVALID →
      (∀ (ec mx ss ses : Nat) (dbg : Bool) (mj : List String) (rp jn : String),
        (lsf_driver_submit_job method ec mx ss ses dbg mj rp jn 0).error_count
            = ec + 1 ∧
        SubmitEvent.incrementError ∈
          (lsf_driver_submit_job method ec mx ss ses dbg mj rp jn 0).events ∧
        SubmitEvent.incrementError ∉
          criticalSection
            (lsf_driver_submit_job method ec mx ss ses dbg mj rp jn 0).events ∧
        ((lsf_driver_submit_job method ec mx ss ses dbg mj rp jn 0).terminated
            = true ↔ mx ≤ ec + 1) ∧
        (ec + 1 < mx →
          (lsf_driver_submit_job method ec mx ss ses dbg mj rp jn 0).job
              = none ∧
          SubmitEvent.sleepBackoff ses ∈
            (lsf_driver_submit_job method ec mx ss ses dbg mj rp jn 0).events)) ∧
      (∀ N, 1 ≤ N →
        (runConsecutiveFailures method N (N - 1)).2 = false ∧
        (runConsecutiveFailures method N N).2 = true) := by
  intro method hm
  have hstep : ∀ (ec mx ss ses : Nat) (dbg : Bool) (mj : List String)
      (rp jn : String),
      (lsf_driver_submit_job method ec mx ss ses dbg mj rp jn 0).error_count
          = ec + 1 ∧
      ((lsf_driver_submit_job method ec mx ss ses dbg mj rp jn 0).terminated
          = true ↔ mx ≤ ec + 1) := by
    intro ec mx ss ses dbg mj rp jn
    rw [submit_fail_eq method hm ec mx ss ses dbg mj rp jn]
    by_cases hmx : mx ≤ ec + 1
    · simp [hmx]
    · simp [hmx]
  have hrun : ∀ (mx n : Nat), n < mx →
      runConsecutiveFailures method mx n = (n, false) := by
    intro mx n
    induction n with
    | zero => intro _; rfl
    | succ n ih =>
      intro hlt
      have hn : n < mx := Nat.lt_of_succ_lt hlt
      rw [runConsecutiveFailures, ih hn]
      have h1 := (hstep n mx 0 2000000 false [] "run" "job").1
      have h2 := (hstep n mx 0 2000000 false [] "run" "job").2
      have hterm : (lsf_driver_submit_job method n mx 0 2000000 false []
          "run" "job" 0).terminated = false := by
        rcases Bool.eq_false_or_eq_true (lsf_driver_submit_job method n mx 0
            2000000 false [] "run" "job" 0).terminated with h | h
        · exact absurd (h2.mp h) (by omega)
        · exact h
      simp [h1, hterm]
  constructor
  · intro ec mx ss ses dbg mj rp jn
    refine ⟨(hstep ec mx ss ses dbg mj rp jn).1, ?_, ?_,
      (hstep ec mx ss ses dbg mj rp jn).2, ?_⟩
    · rw [submit_fail_eq method hm ec mx ss ses dbg mj rp jn]
      by_cases hmx : mx ≤ ec + 1 <;> simp [hmx]
    · rw [submit_fail_eq method hm ec mx ss ses dbg mj rp jn]
      by_cases hmx : mx ≤ ec + 1 <;>
        simp [hmx, criticalSection, List.dropWhile, List.takeWhile]
    · intro hlt
      rw [submit_fail_eq method hm ec mx ss ses dbg mj rp jn,
        if_neg (by omega)]
      simp
  · intro N hN
    obtain ⟨M, rfl⟩ : ∃ M, N = M + 1 := ⟨N - 1, by omega⟩
    constructor
    · rw [hrun (M + 1) (M + 1 - 1) (by omega)]
    · rw [runConsecutiveFailures, hrun (M + 1) M (by omega)]
      have hterm : (lsf_driver_submit_job method M (M + 1) 0 2000000 false []
          "run" "job" 0).terminated = true :=
        (hstep M (M + 1) 0 2000000 false [] "run" "job").2.mpr (by omega)
      simp [hterm]

/-- Witness for the amended C4: with a configured maximum of 3, two
consecutive failures leave the process alive and the third terminates it. -/
theorem submit_failure_retry_policy_witness :
    (runConsecutiveFailures lsf_submit_method_enum.LSF_SUBMIT_LOCAL_SHELL
      3 (3 - 1)).2 = false ∧
    (runConsecutiveFailures lsf_submit_method_enum.LSF_SUBMIT_LOCAL_SHELL
      3 3).2 = true :=
  (submit_failure_retry_policy lsf_submit_method_enum.LSF_SUBMIT_LOCAL_SHELL
    (by decide)).2 3 (by decide)

/-- Claim C5: on a submission whose parsed job id is positive, submit
registers the id string in `my_jobs` inside the submit-lock critical section,
writes the receipt file `lsf_info.json` into the run directory with content
`{"job_id" : <id>}` (a single JSON object with the job id), and returns a
handle whose numeric id — and id string — equal the parsed id; the error
counter is untouched and the process is not terminated. -/
theorem submit_success_registers_and_receipt :
    ∀ method : lsf_submit_method_enum,
      method ≠ lsf_submit_method_enum.LSF_SUBMIT_INVALID →
      ∀ (ec mx ss ses : Nat) (dbg : Bool) (mj : List String) (rp jn : String)
        (id : Int), 0 < id →
        (lsf_driver_submit_job method ec mx ss ses dbg mj rp jn id).job
            = some ⟨id, toString id, jn⟩ ∧
        SubmitEvent.registerMyJob (toString id) ∈
          criticalSection
            (lsf_driver_submit_job method ec mx ss ses dbg mj rp jn id).events ∧
        toString id ∈
          (lsf_driver_submit_job method ec mx ss ses dbg mj rp jn id).my_jobs ∧
        SubmitEvent.writeReceipt (rp ++ "/" ++ "lsf_info.json")
            ("\x7b\"job_id\" : " ++ toString id ++ "\x7d\n") ∈
          (lsf_driver_submit_job method ec mx ss ses dbg mj rp jn id).events ∧
        (lsf_driver_submit_job method ec mx ss ses dbg mj rp jn id).terminated
            = false ∧
        (lsf_driver_submit_job method ec mx ss ses dbg mj rp jn id).error_count
            = ec := by
  intro method hm ec mx ss ses dbg mj rp jn id hid
  rw [submit_success_eq method hm ec mx ss ses dbg mj rp jn id hid]
  refine ⟨rfl, ?_, ?_, ?_, rfl, rfl⟩
  · simp [criticalSection, List.dropWhile, List.takeWhile]
  · simp
  · simp

/-- Witness for C5, at parsed id 42 under the local shell method. -/
theorem submit_success_registers_and_receipt_witness :
    (lsf_driver_submit_job lsf_submit_method_enum.LSF_SUBMIT_LOCAL_SHELL
        0 100 0 2000000 false [] "rp" "jn" 42).job
        = some ⟨42, toString (42 : Int), "jn"⟩ ∧
    SubmitEvent.registerMyJob (toString (42 : Int)) ∈
      criticalSection
        (lsf_driver_submit_job lsf_submit_method_enum.LSF_SUBMIT_LOCAL_SHELL
          0 100 0 2000000 false [] "rp" "jn" 42).events ∧
    toString (42 : Int) ∈
      (lsf_driver_submit_job lsf_submit_method_enum.LSF_SUBMIT_LOCAL_SHELL
        0 100 0 2000000 false [] "rp" "jn" 42).my_jobs ∧
    SubmitEvent.writeReceipt ("rp" ++ "/" ++ "lsf_info.json")
        ("\x7b\"job_id\" : " ++ toString (42 : Int) ++ "\x7d\n") ∈
      (lsf_driver_submit_job lsf_submit_method_enum.LSF_SUBMIT_LOCAL_SHELL
        0 100 0 2000000 false [] "rp" "jn" 42).events ∧
    (lsf_driver_submit_job lsf_submit_method_enum.LSF_SUBMIT_LOCAL_SHELL
      0 100 0 2000000 false [] "rp" "jn" 42).terminated = false ∧
    (lsf_driver_submit_job lsf_submit_method_enum.LSF_SUBMIT_LOCAL_SHELL
      0 100 0 2000000 false [] "rp" "jn" 42).error_count = 0 :=
  submit_success_registers_and_receipt
    lsf_submit_method_enum.LSF_SUBMIT_LOCAL_SHELL (by decide)
    0 100 0 2000000 false [] "rp" "jn" 42 (by decide)

theorem lookupOrProbe_did (st : shell_state) (job : lsf_job)
    (sample1 sample2 : Option (Int × Int)) (did : Bool) :
    (lookupOrProbe st job sample1 sample2 did).did_refresh = did := by
  unfold lookupOrProbe
  cases mapFind st.bjobs_cache job.lsf_jobnr_char <;> rfl

/-- Claim C6: a status lookup refreshes the whole cache if and only if more
time than the configured refresh interval has elapsed since the last refresh
or the requested job id is absent from the cache; consequently, after a
refreshing call, any lookup within the interval for an id present in the
post-refresh cache does not refresh again. -/
theorem status_refresh_predicate :
    ∀ (now : Int) (st : shell_state) (job : lsf_job)
      (listing : List BjobsLine) (sample1 sample2 : Option (Int × Int))
      (r : StatusResult),
      lsf_driver_get_job_status_shell now st (some job) listing sample1 sample2
          = some r →
      (r.did_refresh = true ↔
        (now - st.last_bjobs_update > st.bjobs_refresh_interval ∨
          hashHasKey st.bjobs_cache job.lsf_jobnr_char = false)) ∧
      (r.did_refresh = true →
        ∀ (now2 : Int) (job2 : lsf_job) (listing2 : List BjobsLine)
          (s1 s2 : Option (Int × Int)),
          now2 - r.state.last_bjobs_update ≤ r.state.bjobs_refresh_interval →
          hashHasKey r.state.bjobs_cache job2.lsf_jobnr_char = true →
          (lsf_driver_get_job_status_shell now2 r.state (some job2)
              listing2 s1 s2).map StatusResult.did_refresh = some false) := by
  intro now st job listing sample1 sample2 r hcall
  have hnorefresh : ∀ (now2 : Int) (st2 : shell_state) (job2 : lsf_job)
      (listing2 : List BjobsLine) (s1 s2 : Option (Int × Int)),
      now2 - st2.last_bjobs_update ≤ st2.bjobs_refresh_interval →
      hashHasKey st2.bjobs_cache job2.lsf_jobnr_char = true →
      (lsf_driver_get_job_status_shell now2 st2 (some job2) listing2 s1 s2).map
          StatusResult.did_refresh = some false := by
    intro now2 st2 job2 listing2 s1 s2 hle hkey
    have hcond :
        (decide (now2 - st2.last_bjobs_update > st2.bjobs_refresh_interval) ||
          !hashHasKey st2.bjobs_cache job2.lsf_jobnr_char) = false := by
      rw [hkey, decide_eq_false (not_lt.mpr hle)]
      rfl
    simp only [lsf_driver_get_job_status_shell, hcond, Bool.false_eq_true,
      if_false]
    simp [lookupOrProbe_did]
  refine ⟨?_, fun _ now2 job2 listing2 s1 s2 hle hkey =>
    hnorefresh now2 r.state job2 listing2 s1 s2 hle hkey⟩
  revert hcall
  simp only [lsf_driver_get_job_status_shell]
  rcases hu : (decide (now - st.last_bjobs_update > st.bjobs_refresh_interval)
      || !hashHasKey st.bjobs_cache job.lsf_jobnr_char) with _ | _
  · simp only [Bool.false_eq_true, if_false]
    intro hcall
    obtain rfl : lookupOrProbe st job sample1 sample2 false = r :=
      Option.some.inj hcall
    rw [lookupOrProbe_did]
    simp only [Bool.false_eq_true, false_iff]
    intro hcontra
    rcases hcontra with h | h
    · rw [decide_eq_true h] at hu
      simp at hu
    · rw [h] at hu
      simp at hu
  · simp only [if_true]
    cases hup : lsf_driver_update_bjobs_table st.my_jobs listing
        st.bjobs_cache with
    | none => intro hcall; cases hcall
    | some cache1 =>
      intro hcall
      obtain rfl :
          lookupOrProbe
            { st with bjobs_cache := cache1, last_bjobs_update := now }
            job sample1 sample2 true = r :=
        Option.some.inj hcall
      rw [lookupOrProbe_did]
      constructor
      · intro _
        rcases Bool.eq_false_or_eq_true
            (hashHasKey st.bjobs_cache job.lsf_jobnr_char) with hk | hk
        · left
          rw [hk] at hu
          simp only [Bool.not_true, Bool.or_false] at hu
          exact of_decide_eq_true hu
        · exact Or.inr hk
      · intro _
        rfl

/-- Witness for C6: a call at time 120 with a stale timestamp (100, interval
10) refreshes; the follow-up call at time 125 on the refreshed state, for the
id `42` now present in the cache, does not refresh. -/
theorem status_refresh_predicate_witness :
    (lsf_driver_get_job_status_shell 125
        ⟨[("42", JOB_STAT_RUN)], 120, 10, false, ["42"]⟩
        (some ⟨42, "42", "j"⟩) [] none none).map StatusResult.did_refresh
      = some false :=
  (status_refresh_predicate 120 ⟨[("9", 1)], 100, 10, false, ["42"]⟩
      ⟨42, "42", "j"⟩ [none, some (42, "u", "RUN")] none none
      ⟨JOB_STAT_RUN, ⟨[("42", JOB_STAT_RUN)], 120, 10, false, ["42"]⟩, true⟩
      (by decide)).2 rfl 125 ⟨42, "42", "j"⟩ [] none none (by decide)
    (by decide)

theorem hashHasKey_insert (cache : BjobsCache) (key k : String) (v : Nat) :
    hashHasKey (hash_insert_int cache key v) k = true ↔
      k = key ∨ hashHasKey cache k = true := by
  by_cases h : key = k
  · subst h
    simp [hashHasKey, hash_insert_int, mapFind]
  · simp only [hashHasKey, hash_insert_int, mapFind, if_neg h]
    constructor
    · exact Or.inr
    · rintro (hk | hk)
      · exact absurd hk.symm h
      · exact hk

theorem bjobsInsertLines_none_iff (mj : List String) :
    ∀ (lines : List BjobsLine) (acc : BjobsCache),
      bjobsInsertLines mj lines acc = none ↔
        ∃ id u s, some (id, u, s) ∈ lines ∧ toString id ∈ mj ∧
          mapFind status_map s = none := by
  intro lines
  induction lines with
  | nil => intro acc; simp [bjobsInsertLines]
  | cons line rest ih =>
    intro acc
    match line with
    | none =>
      simp only [bjobsInsertLines, ih, List.mem_cons]
      constructor
      · rintro ⟨id, u, s, hmem, hmj, hs⟩
        exact ⟨id, u, s, Or.inr hmem, hmj, hs⟩
      · rintro ⟨id, u, s, hmem, hmj, hs⟩
        rcases hmem with hmem | hmem
        · exact absurd hmem (by simp)
        · exact ⟨id, u, s, hmem, hmj, hs⟩
    | some (id0, u0, s0) =>
      simp only [bjobsInsertLines]
      by_cases hmem : toString id0 ∈ mj
      · rw [if_pos hmem]
        cases hfind : mapFind status_map s0 with
        | some code =>
          simp only [ih, List.mem_cons]
          constructor
          · rintro ⟨id, u, s, hm, hmj, hs⟩
            exact ⟨id, u, s, Or.inr hm, hmj, hs⟩
          · rintro ⟨id, u, s, hm, hmj, hs⟩
            rcases hm with hm | hm
            · obtain ⟨rfl, rfl, rfl⟩ :
                  id = id0 ∧ u = u0 ∧ s = s0 := by
                simpa using hm
              exact absurd hfind (by rw [hs]; simp)
            · exact ⟨id, u, s, hm, hmj, hs⟩
        | none =>
          simp only [List.mem_cons, true_iff]
          exact ⟨id0, u0, s0, Or.inl rfl, hmem, hfind⟩
      · rw [if_neg hmem]
        simp only [ih, List.mem_cons]
        constructor
        · rintro ⟨id, u, s, hm, hmj, hs⟩
          exact ⟨id, u, s, Or.inr hm, hmj, hs⟩
        · rintro ⟨id, u, s, hm, hmj, hs⟩
          rcases hm with hm | hm
          · obtain ⟨rfl, rfl, rfl⟩ : id = id0 ∧ u = u0 ∧ s = s0 := by
              simpa using hm
            exact absurd hmj hmem
          · exact ⟨id, u, s, hm, hmj, hs⟩

theorem bjobsInsertLines_hasKey (mj : List String) :
    ∀ (lines : List BjobsLine) (acc cache : BjobsCache),
      bjobsInsertLines mj lines acc = some cache →
      ∀ k, hashHasKey cache k = true ↔
        (hashHasKey acc k = true ∨
          ∃ id u s, some (id, u, s) ∈ lines ∧ toString id = k ∧ k ∈ mj) := by
  intro lines
  induction lines with
  | nil =>
    intro acc cache hres k
    obtain rfl : acc = cache := Option.some.inj hres
    simp [bjobsInsertLines]
  | cons line rest ih =>
    intro acc cache hres k
    match line with
    | none =>
      rw [ih acc cache hres k]
      simp only [List.mem_cons]
      constructor
      · rintro (h | ⟨id, u, s, hm, hid, hmj⟩)
        · exact Or.inl h
        · exact Or.inr ⟨id, u, s, Or.inr hm, hid, hmj⟩
      · rintro (h | ⟨id, u, s, hm, hid, hmj⟩)
        · exact Or.inl h
        · rcases hm with hm | hm
          · exact absurd hm (by simp)
          · exact Or.inr ⟨id, u, s, hm, hid, hmj⟩
    | some (id0, u0, s0) =>
      rw [bjobsInsertLines] at hres
      by_cases hmem : toString id0 ∈ mj
      · rw [if_pos hmem] at hres
        cases hfind : mapFind status_map s0 with
        | none =>
          rw [hfind] at hres
          cases hres
        | some code =>
          rw [hfind] at hres
          rw [ih _ cache hres k, hashHasKey_insert]
          simp only [List.mem_cons]
          constructor
          · rintro ((h | h) | ⟨id, u, s, hm, hid, hmj⟩)
            · exact Or.inr ⟨id0, u0, s0, Or.inl rfl, h.symm, h ▸ hmem⟩
            · exact Or.inl h
            · exact Or.inr ⟨id, u, s, Or.inr hm, hid, hmj⟩
          · rintro (h | ⟨id, u, s, hm, hid, hmj⟩)
            · exact Or.inl (Or.inr h)
            · rcases hm with hm | hm
              · obtain ⟨rfl, rfl, rfl⟩ : id = id0 ∧ u = u0 ∧ s = s0 := by
                  simpa using hm
                exact Or.inl (Or.inl hid.symm)
              · exact Or.inr ⟨id, u, s, hm, hid, hmj⟩
      · rw [if_neg hmem] at hres
        rw [ih acc cache hres k]
        simp only [List.mem_cons]
        constructor
        · rintro (h | ⟨id, u, s, hm, hid, hmj⟩)
          · exact Or.inl h
          · exact Or.inr ⟨id, u, s, Or.inr hm, hid, hmj⟩
        · rintro (h | ⟨id, u, s, hm, hid, hmj⟩)
          · exact Or.inl h
          · rcases hm with hm | hm
            · obtain ⟨rfl, rfl, rfl⟩ : id = id0 ∧ u = u0 ∧ s = s0 := by
                simpa using hm
              exact absurd (hid ▸ hmj) hmem
            · exact Or.inr ⟨id, u, s, hm, hid, hmj⟩

/-- Claim C3: after a refresh that did not hit the fatal error, the cache
contains exactly the job ids that both appear on a parsed line of the
bulk-listing output (after the skipped header line) and are members of
`my_jobs` — independently of the prior cache contents, which are cleared
first; and the refresh is the fatal `util_exit` (returns `none`) exactly when
some parsed line carries a `my_jobs` id with an unrecognized status token. -/
theorem update_bjobs_table_exact :
    ∀ (my_jobs : List String) (lines : List BjobsLine) (prior : BjobsCache),
      (∀ cache,
        lsf_driver_update_bjobs_table my_jobs lines prior = some cache →
        ∀ k, hashHasKey cache k = true ↔
          (k ∈ my_jobs ∧
            ∃ id u s, some (id, u, s) ∈ lines.drop 1 ∧ toString id = k)) ∧
      (lsf_driver_update_bjobs_table my_jobs lines prior = none ↔
        ∃ id u s, some (id, u, s) ∈ lines.drop 1 ∧ toString id ∈ my_jobs ∧
          mapFind status_map s = none) := by
  intro my_jobs lines prior
  constructor
  · intro cache hres k
    have h := bjobsInsertLines_hasKey my_jobs (lines.drop 1) [] cache hres k
    rw [h]
    simp only [hashHasKey, mapFind, Option.isSome_none, Bool.false_eq_true,
      false_or]
    constructor
    · rintro ⟨id, u, s, hm, hid, hmj⟩
      exact ⟨hmj, id, u, s, hm, hid⟩
    · rintro ⟨hmj, id, u, s, hm, hid⟩
      exact ⟨id, u, s, hm, hid, hmj⟩
  · exact bjobsInsertLines_none_iff my_jobs (lines.drop 1) []

/-- Witness for C3: a listing with a header line, a recognized line for the
my-jobs id 42 and a foreign id 7 yields a cache holding exactly key `"42"`;
and an unrecognized token `FOOBAR` on a my-jobs line is fatal. -/
theorem update_bjobs_table_exact_witness :
    hashHasKey [("42", JOB_STAT_RUN)] "42" = true ∧
    lsf_driver_update_bjobs_table ["42"]
      [none, some (42, "alice", "FOOBAR")] [] = none :=
  ⟨((update_bjobs_table_exact ["42"]
        [none, some (42, "alice", "RUN"), some (7, "bob", "RUN")]
        [("9", 1)]).1
      [("42", JOB_STAT_RUN)] (by decide) "42").mpr
      ⟨by decide, 42, "alice", "RUN", by decide, by decide⟩,
   (update_bjobs_table_exact ["42"] [none, some (42, "alice", "FOOBAR")]
      []).2.mpr ⟨42, "alice", "FOOBAR", by decide, by decide, by decide⟩⟩

theorem take_eq_iff (pat s : List Char) :
    s.take pat.length = pat ↔ ∃ t, s = pat ++ t := by
  constructor
  · intro h
    refine ⟨s.drop pat.length, ?_⟩
    conv_lhs => rw [← List.take_append_drop pat.length s]
    rw [h]
  · rintro ⟨t, rfl⟩
    exact List.take_left pat t

theorem occCount_pos (pat X Y : List Char) (hp : pat ≠ []) :
    1 ≤ occCount pat (X ++ pat ++ Y) := by
  cases pat with
  | nil => exact absurd rfl hp
  | cons p pt =>
    induction X with
    | nil =>
      rw [List.nil_append]
      have hsplit : (p :: pt) ++ Y = p :: (pt ++ Y) := List.cons_append p pt Y
      rw [hsplit, occCount,
        if_pos ((take_eq_iff (p :: pt) (p :: (pt ++ Y))).mpr ⟨Y, hsplit.symm⟩)]
      omega
    | cons x X ih =>
      have hform : (x :: X) ++ (p :: pt) ++ Y = x :: (X ++ (p :: pt) ++ Y) :=
        by simp
      rw [hform, occCount]
      by_cases hpre :
          ((x :: (X ++ (p :: pt) ++ Y)).take (p :: pt).length = p :: pt)
      · rw [if_pos hpre]
        omega
      · rw [if_neg hpre]
        omega

theorem splitFirst_of_unique (pat A R : List Char) (hp : pat ≠ [])
    (hocc : occCount pat (A ++ pat ++ R) ≤ 1) :
    splitFirst pat (A ++ pat ++ R) = some (A, R) := by
  induction A with
  | nil =>
    cases pat with
    | nil => exact absurd rfl hp
    | cons p pt =>
      rw [List.nil_append]
      have hsplit : (p :: pt) ++ R = p :: (pt ++ R) := List.cons_append p pt R
      rw [hsplit, splitFirst,
        if_pos ((take_eq_iff (p :: pt) (p :: (pt ++ R))).mpr ⟨R, hsplit.symm⟩)]
      rw [← hsplit, List.drop_left]
  | cons a A ih =>
    have hform : (a :: A) ++ pat ++ R = a :: (A ++ pat ++ R) := by simp
    rw [hform] at hocc ⊢
    rw [occCount] at hocc
    by_cases hpre : ((a :: (A ++ pat ++ R)).take pat.length = pat)
    · exfalso
      rw [if_pos hpre] at hocc
      have := occCount_pos pat A R hp
      omega
    · rw [if_neg hpre] at hocc
      rw [splitFirst, if_neg hpre, ih (by omega)]

theorem splitFirst_of_absent (pat s : List Char)
    (hocc : occCount pat s = 0) : splitFirst pat s = none := by
  induction s with
  | nil => rfl
  | cons c rest ih =>
    rw [occCount] at hocc
    by_cases hpre : ((c :: rest).take pat.length = pat)
    · rw [if_pos hpre] at hocc
      omega
    · rw [if_neg hpre] at hocc
      rw [splitFirst, if_neg hpre, ih (by omega)]

theorem splitFirst_singleton (c : Char) (pre post : List Char)
    (hc : c ∉ pre) :
    splitFirst [c] (pre ++ c :: post) = some (pre, post) := by
  induction pre with
  | nil => simp [splitFirst]
  | cons d pre ih =>
    have hd : d ≠ c := fun h => hc (by simp [h])
    have hc' : c ∉ pre := fun h => hc (by simp [h])
    have hform : (d :: pre) ++ c :: post = d :: (pre ++ c :: post) :=
      List.cons_append d pre (c :: post)
    have hcond : ¬((d :: (pre ++ c :: post)).take [c].length = [c]) := by
      intro h
      simp at h
      exact hd h
    rw [hform, splitFirst, if_neg hcond, ih hc']

theorem composed_no_select (tmpl exc : List Char)
    (h : occCount selectPat tmpl = 0) :
    alloc_composed_resource_request tmpl exc
      = some (tmpl ++ " select[".toList ++ exc ++ [']']) := by
  unfold alloc_composed_resource_request
  rw [splitFirst_of_absent selectPat tmpl h]

theorem composed_one_select (A P B exc : List Char)
    (hocc : occCount selectPat (A ++ selectPat ++ (P ++ ']' :: B)) ≤ 1)
    (hP : ']' ∉ P) :
    alloc_composed_resource_request (A ++ selectPat ++ (P ++ ']' :: B)) exc
      = some (A ++ selectPat ++ P ++ andSep ++ exc ++ ']' :: ' ' :: B) := by
  unfold alloc_composed_resource_request
  rw [splitFirst_of_unique selectPat A (P ++ ']' :: B) (by decide) hocc]
  have hnotin : ']' ∉ selectPat ++ P := by
    intro hmem
    rcases List.mem_append.mp hmem with hs | hs
    · revert hs
      decide
    · exact hP hs
  have h2 : splitFirst [']'] (selectPat ++ (P ++ ']' :: B))
      = some (selectPat ++ P, B) := by
    rw [show selectPat ++ (P ++ ']' :: B) = (selectPat ++ P) ++ ']' :: B by
      simp]
    exact splitFirst_singleton ']' (selectPat ++ P) B hnotin
  simp only [h2]
  simp [List.append_assoc]

/-- Claim C7: with a non-empty excluded-host list, the composed resource
string contains exactly one selection clause — when the template has none, a
fresh `select[...]` holding the per-host `hname!='X'` predicates joined by
`&&` is appended; when the template has one (`A ++ "select[" ++ P ++ "]" ++
B`, occurring exactly once and with `]`-free predicates `P`), the exclusion
predicates are spliced into that clause behind `&&`, order-preserving over the
host list, with the surrounding template text `A` and `B` preserved verbatim
(the overwritten `]` resurfaces as one extra space before `B`). -/
theorem composed_resource_request_select :
    ∀ hosts : List (List Char), hosts ≠ [] →
      (∀ tmpl, occCount selectPat tmpl = 0 →
        lsf_resource_request_unquoted (some tmpl) hosts
          = some (tmpl ++ " select[".toList ++
              joinAnd (hosts.map excludeHostPredicate) ++ [']'])) ∧
      (∀ A P B : List Char,
        occCount selectPat (A ++ selectPat ++ (P ++ ']' :: B)) ≤ 1 →
        ']' ∉ P →
        lsf_resource_request_unquoted
            (some (A ++ selectPat ++ (P ++ ']' :: B))) hosts
          = some (A ++ selectPat ++ P ++ andSep ++
              joinAnd (hosts.map excludeHostPredicate) ++
                ']' :: ' ' :: B)) := by
  intro hosts hne
  constructor
  · intro tmpl h
    unfold lsf_resource_request_unquoted
    rw [if_neg hne]
    exact composed_no_select tmpl _ h
  · intro A P B hocc hP
    unfold lsf_resource_request_unquoted
    rw [if_neg hne]
    exact composed_one_select A P B _ hocc hP

/-- Witness for C7, splicing one excluded host `h` into the template
`span[x] select[A] y`. -/
theorem composed_resource_request_select_witness :
    lsf_resource_request_unquoted
        (some ("span[x] ".toList ++ selectPat ++
          ("A".toList ++ ']' :: " y".toList))) [['h']]
      = some ("span[x] ".toList ++ selectPat ++ "A".toList ++ andSep ++
          joinAnd ([['h']].map excludeHostPredicate) ++
            ']' :: ' ' :: " y".toList) :=
  (composed_resource_request_select [['h']] (by decide)).2 "span[x] ".toList
    "A".toList " y".toList (by decide) (by decide)

/-- Claim C8: whenever the driver configuration yields a composed resource
string, the string placed on the submit command line is the unquoted
composition wrapped in double quotes if the invocation method is remote-shell,
and the bare unquoted composition otherwise. -/
theorem quoted_resource_iff_remote_shell :
    ∀ (method : lsf_submit_method_enum)
      (resource_request : Option (List Char))
      (exclude_hosts : List (List Char)) (s : List Char),
      alloc_quoted_resource_string method resource_request exclude_hosts
          = some s →
      ∃ req, lsf_resource_request_unquoted resource_request exclude_hosts
          = some req ∧
        ((method = lsf_submit_method_enum.LSF_SUBMIT_REMOTE_SHELL ∧
            s = dquoteChar :: (req ++ [dquoteChar])) ∨
         (method ≠ lsf_submit_method_enum.LSF_SUBMIT_REMOTE_SHELL ∧
            s = req)) := by
  intro method rr hosts s h
  unfold alloc_quoted_resource_string at h
  cases hu : lsf_resource_request_unquoted rr hosts with
  | none =>
    rw [hu] at h
    cases h
  | some req =>
    rw [hu] at h
    refine ⟨req, rfl, ?_⟩
    by_cases hm : method = lsf_submit_method_enum.LSF_SUBMIT_REMOTE_SHELL
    · refine Or.inl ⟨hm, ?_⟩
      have h' : some (dquoteChar :: (req ++ [dquoteChar])) = some s := by
        rw [← h]
        simp [hm]
      exact (Option.some.inj h').symm
    · refine Or.inr ⟨hm, ?_⟩
      have h' : some req = some s := by
        rw [← h]
        simp [hm]
      exact (Option.some.inj h').symm

/-- Witness for C8: the local-shell method leaves the resource string
unquoted. -/
theorem quoted_resource_iff_remote_shell_witness :
    ∃ req, lsf_resource_request_unquoted (some ['a']) [] = some req ∧
      ((lsf_submit_method_enum.LSF_SUBMIT_LOCAL_SHELL =
          lsf_submit_method_enum.LSF_SUBMIT_REMOTE_SHELL ∧
        ['a'] = dquoteChar :: (req ++ [dquoteChar])) ∨
       (lsf_submit_method_enum.LSF_SUBMIT_LOCAL_SHELL ≠
          lsf_submit_method_enum.LSF_SUBMIT_REMOTE_SHELL ∧
        ['a'] = req)) :=
  quoted_resource_iff_remote_shell
    lsf_submit_method_enum.LSF_SUBMIT_LOCAL_SHELL (some ['a']) [] ['a'] rfl
